import Mathlib

/-!
Verification of the lmstudio-proxy Edge/Worker bridge.

Shallow embedding of the TypeScript sources:
- packages/server/src/middleware auth (authMiddleware, errorHandler)
- packages/server/src/websocket (client-manager, server close handler,
  message-handler dispatch)
- packages/server/src/api/controllers (models, completions, embeddings)
- packages/client/src/proxy-connection (Worker side)

JavaScript string operations are modelled on lists of characters with the
exact JS semantics used by the source (String.prototype.replace with a
string pattern replaces only the first occurrence, split on a single-space
separator, toLowerCase, trim).
-/

/-- `isPrefixL pat s` : does `s` start with `pat` (JS `startsWith` on char lists). -/
def isPrefixL : List Char → List Char → Bool
  | [], _ => true
  | _ :: _, [] => false
  | p :: ps, c :: cs => p == c && isPrefixL ps cs

/-- Does `s` contain `pat` as a contiguous substring (JS `includes`). -/
def hasSubL (pat : List Char) : List Char → Bool
  | [] => isPrefixL pat []
  | c :: rest => isPrefixL pat (c :: rest) || hasSubL pat rest

/-- Remove the first occurrence of `pat` from `s`
(JS `String.prototype.replace(pat, "")` with a string pattern: first occurrence only). -/
def replaceFirstL (pat : List Char) : List Char → List Char
  | [] => []
  | c :: rest =>
    if isPrefixL pat (c :: rest) then (c :: rest).drop pat.length
    else c :: replaceFirstL pat rest

/-- JS `h.startsWith(pat)`. -/
def jsStartsWith (h pat : String) : Bool := isPrefixL pat.data h.data

/-- JS `h.includes(pat)`. -/
def jsIncludes (h pat : String) : Bool := hasSubL pat.data h.data

/-- JS `h.replace(pat, "")` (first occurrence only). -/
def jsReplaceFirst (h pat : String) : String := String.mk (replaceFirstL pat.data h.data)

/-- ASCII lower-casing of one character (the message tags compared by the
source are ASCII). -/
def charLower (c : Char) : Char :=
  if 'A' ≤ c && c ≤ 'Z' then Char.ofNat (c.toNat + 32) else c

/-- Whitespace test used for trimming. -/
def isWS (c : Char) : Bool :=
  c == ' ' || c == '\t' || c == '\n' || c == '\r'

/-- Trim whitespace from both ends of a char list. -/
def trimL (s : List Char) : List Char :=
  ((s.dropWhile isWS).reverse.dropWhile isWS).reverse

/-- JS `h.toLowerCase().trim()` as used on message type tags. -/
def jsLowerTrim (h : String) : String := String.mk (trimL (h.data.map charLower))

/-- Minimal JSON value model for frame payloads (`data` fields). -/
inductive Json where
  | null : Json
  | bool (b : Bool) : Json
  | num (n : Int) : Json
  | str (s : String) : Json
  | arr (xs : List Json) : Json
  | obj (fields : List (String × Json)) : Json

/-- Escape one character as inside a JSON string literal (subset used here:
quote and backslash; other characters are emitted as themselves). -/
def jsonEscapeChar (c : Char) : String :=
  if c = '"' then "\\\"" else if c = '\\' then "\\\\" else String.mk [c]

/-- Escape a string body for JSON output. -/
def jsonEscape (s : String) : String :=
  String.join (s.data.map jsonEscapeChar)

mutual

/-- `JSON.stringify` of a value. -/
def jsonStringify : Json → String
  | Json.null => "null"
  | Json.bool true => "true"
  | Json.bool false => "false"
  | Json.num n => toString n
  | Json.str s => "\"" ++ jsonEscape s ++ "\""
  | Json.arr xs => "[" ++ jsonStringifyList xs ++ "]"
  | Json.obj fs => "\x7b" ++ jsonStringifyFields fs ++ "\x7d"

/-- Comma-separated stringification of array elements. -/
def jsonStringifyList : List Json → String
  | [] => ""
  | [x] => jsonStringify x
  | x :: y :: rest => jsonStringify x ++ "," ++ jsonStringifyList (y :: rest)

/-- Comma-separated stringification of object fields. -/
def jsonStringifyFields : List (String × Json) → String
  | [] => ""
  | [(k, v)] => "\"" ++ jsonEscape k ++ "\":" ++ jsonStringify v
  | (k, v) :: f :: rest =>
    "\"" ++ jsonEscape k ++ "\":" ++ jsonStringify v ++ "," ++ jsonStringifyFields (f :: rest)

end

/-- JS truthiness of a JSON value (`undefined` is modelled as `Option.none`
at use sites; `null`, `false`, `0`, `""` are falsy). -/
def jsTruthy : Json → Bool
  | Json.null => false
  | Json.bool b => b
  | Json.num n => n != 0
  | Json.str s => s != ""
  | Json.arr _ => true
  | Json.obj _ => true

/-- Property lookup `v.k`; `none` models JS `undefined`. -/
def jsonGet (v : Json) (k : String) : Option Json :=
  match v with
  | Json.obj fs => (fs.find? (fun f => f.1 == k)).map (fun f => f.2)
  | _ => none

/-- Array index `v[0]`; `none` models JS `undefined`. -/
def jsonIndex0 (v : Json) : Option Json :=
  match v with
  | Json.arr (x :: _) => some x
  | _ => none

/-- Truthiness of a possibly-undefined value. -/
def jsTruthyOpt : Option Json → Bool
  | none => false
  | some v => jsTruthy v

/-!
## HTTP auth middleware (server middleware/auth.ts) and error handler

`authMiddleware` checks `req.headers.authorization`; a missing header and
a present-but-empty one are both caught by the JS-falsy `if (!authHeader)`
guard and rejected `Authorization header missing`.  If the header starts
with `"Bearer "` the second space-separated token is verified as a JWT; on
failure a 401 "Invalid or expired token" is raised (no API-key fallback).
Otherwise the header with its first `"Bearer "` occurrence removed is
compared byte-equal to the configured API key.  `jwt.verify` against the
process secret is abstracted as the predicate `validToken`.
-/

structure AuthConfig where
  apiKey : String
  /-- Abstraction of `jwt.verify(token, config.jwtSecret)` succeeding:
  the token is a valid, unexpired signed token. -/
  validToken : String → Bool

inductive AuthOutcome where
  /-- `next()` was called: the request proceeds. -/
  | accepted : AuthOutcome
  /-- `next(new ApiError(status, message))`. -/
  | rejected (status : Nat) (message : String) : AuthOutcome
deriving DecidableEq, Repr

/-- Embedding of `authMiddleware` (middleware/auth.ts).  The first guard is
`if (!authHeader)`: both a missing header (`none`) and a present-but-empty
header (`some ""`, JS-falsy) are rejected with
`Authorization header missing`. -/
def authMiddleware (cfg : AuthConfig) (authHeader : Option String) : AuthOutcome :=
  match authHeader with
  | none => AuthOutcome.rejected 401 "Authorization header missing"
  | some h =>
    if h == "" then AuthOutcome.rejected 401 "Authorization header missing"
    else if jsStartsWith h "Bearer " then
      -- const token = authHeader.split(" ")[1]
      let token := (h.splitOn " ").getD 1 ""
      if cfg.validToken token then AuthOutcome.accepted
      else AuthOutcome.rejected 401 "Invalid or expired token"
    else
      -- const apiKey = authHeader.replace("Bearer ", "")
      let key := jsReplaceFirst h "Bearer "
      if key == cfg.apiKey then AuthOutcome.accepted
      else AuthOutcome.rejected 401 "Invalid API key"

/-- Body produced by `errorHandler` (middleware/error-handler.ts) for an
`ApiError` without an explicit `type`: the `type` field defaults to
`"api_error"` and `code` echoes the status. -/
def errorBody (status : Nat) (message : String) : Json :=
  Json.obj [("error", Json.obj
    [("message", Json.str message), ("type", Json.str "api_error"),
     ("code", Json.num (Int.ofNat status))])]

/-- HTTP response as observed by the client after the error middleware. -/
structure HttpReply where
  status : Nat
  body : Json

/-- End-to-end auth result for a `/v1/*` request: `none` means the request
was passed on to the route handlers; `some r` is the error reply. -/
def authHttpResult (cfg : AuthConfig) (authHeader : Option String) : Option HttpReply :=
  match authMiddleware cfg authHeader with
  | AuthOutcome.accepted => none
  | AuthOutcome.rejected st msg => some ⟨st, errorBody st msg⟩

/-!
## WS message dispatch (server websocket/message-handler.ts, handleMessage)

`Object.values(MessageType)` from common/types.ts, in declaration order.
-/

def messageTypeValues : List String :=
  ["auth", "auth_result", "register", "ping", "pong",
   "chat_request", "completion_request", "embeddings_request",
   "models_request", "cancel_request",
   "chat_response", "completion_response", "embeddings_response",
   "models_response", "response", "stream_chunk", "stream_end",
   "error", "error_response"]

/-- Tags with a `case` arm in the `switch` of `handleMessage`; every other
tag reaches the `default` arm. -/
def handledTags : List String :=
  ["ping", "chat_response", "completion_response", "embeddings_response",
   "models_response", "error_response", "stream_chunk", "stream_end"]

/-- Immediate result of `handleMessage`s tag validation and dispatch. -/
inductive DispatchResult where
  /-- `sendError(ws, msg)`: one frame `type:"error", error: msg` to the sender. -/
  | errorFrame (msg : String) : DispatchResult
  /-- The message reached the `case` arm for `tag`. -/
  | handled (tag : String) : DispatchResult
deriving DecidableEq, Repr

/-- Embedding of the tag validation, normalization and `switch` dispatch of
`handleMessage`.  `mtype` is `message.type` (`none` for a missing field; the
empty string is likewise JS-falsy and takes the missing-type path). -/
def handleMessageDispatch (mtype : Option String) : DispatchResult :=
  match mtype with
  | none => DispatchResult.errorFrame "Invalid message format: missing type"
  | some t =>
    if t == "" then DispatchResult.errorFrame "Invalid message format: missing type"
    else
      -- const messageTypeLower = messageTypeStr.toLowerCase().trim()
      let lower := jsLowerTrim t
      -- validation: values.includes(t) || stringValues.includes(t)
      --   || lowerStringValues.includes(lower)
      if messageTypeValues.contains t || messageTypeValues.contains lower then
        -- conversion for the switch: the enum whose lowercased value equals
        -- the normalized tag; since enum values are lowercase this is `lower`
        let switchKey := if messageTypeValues.contains lower then lower else t
        if handledTags.contains switchKey then DispatchResult.handled switchKey
        else DispatchResult.errorFrame ("Unknown message type: " ++ t)
      else if lower == "stream_chunk" || jsIncludes lower "stream_chunk" then
        -- special case: normalized to stream_chunk, then mapped for the switch
        DispatchResult.handled "stream_chunk"
      else if lower == "stream_end" || jsIncludes lower "stream_end" then
        DispatchResult.handled "stream_end"
      else DispatchResult.errorFrame ("Unknown message type: " ++ t)

/-!
## Worker registry (server websocket/client-manager.ts) and the
connection-close handler (server websocket/server.ts)

Transports are identified by numeric handles.  Per-socket mutable fields
(`clientId`, `isAuthenticated`, `readyState`) and the `close(code)` calls
issued are tracked explicitly.
-/

structure RegistryState where
  /-- `ClientManager.clients`: insertion-ordered map clientId -> socket. -/
  clients : List (String × Nat)
  /-- Socket field `clientId` (set by `addClient`); absent models `''`. -/
  sockClientId : List (Nat × String)
  /-- Socket field `isAuthenticated`. -/
  sockAuth : List (Nat × Bool)
  /-- `readyState === WebSocket.OPEN`. -/
  sockOpen : List (Nat × Bool)
  /-- Log of `ws.close(code, ...)` calls issued by the manager. -/
  closeCalls : List (Nat × Nat)

def RegistryState.initial : RegistryState := ⟨[], [], [], [], []⟩

/-- Assoc-list update (Map.set semantics: replace in place or append). -/
def setAssoc {α : Type} [BEq α] {β : Type} (m : List (α × β)) (k : α) (v : β) :
    List (α × β) :=
  match m with
  | [] => [(k, v)]
  | (k0, v0) :: rest =>
    if k0 == k then (k, v) :: rest else (k0, v0) :: setAssoc rest k v

/-- Assoc-list lookup. -/
def getAssoc {α : Type} [BEq α] {β : Type} (m : List (α × β)) (k : α) : Option β :=
  match m with
  | [] => none
  | (k0, v0) :: rest => if k0 == k then some v0 else getAssoc rest k

/-- Assoc-list removal (Map.delete). -/
def delAssoc {α : Type} [BEq α] {β : Type} (m : List (α × β)) (k : α) :
    List (α × β) :=
  match m with
  | [] => []
  | (k0, v0) :: rest => if k0 == k then rest else (k0, v0) :: delAssoc rest k

/-- Is socket `w` OPEN in state `st`. -/
def sockIsOpen (st : RegistryState) (w : Nat) : Bool :=
  (getAssoc st.sockOpen w).getD false

/-- Is socket `w` authenticated in state `st`. -/
def sockIsAuth (st : RegistryState) (w : Nat) : Bool :=
  (getAssoc st.sockAuth w).getD false

/-- A fresh connection arrives (server.ts `wss.on('connection')` initial
field assignments: `isAlive=true; isAuthenticated=false; clientId=''`). -/
def newConnection (st : RegistryState) (w : Nat) : RegistryState :=
  { st with
    sockOpen := setAssoc st.sockOpen w true
    sockAuth := setAssoc st.sockAuth w false
    sockClientId := setAssoc st.sockClientId w "" }

/-- Embedding of `ClientManager.addClient(clientId, ws)`: an existing OPEN
socket under the same id is closed with code 1000, then the map entry is
replaced and the new socket gets `clientId` and `isAuthenticated=true`. -/
def addClient (st : RegistryState) (clientId : String) (w : Nat) : RegistryState :=
  let st1 :=
    match getAssoc st.clients clientId with
    | some existing =>
      if sockIsOpen st existing then
        { st with
          closeCalls := st.closeCalls ++ [(existing, 1000)]
          sockOpen := setAssoc st.sockOpen existing false }
      else st
    | none => st
  { st1 with
    clients := setAssoc st1.clients clientId w
    sockClientId := setAssoc st1.sockClientId w clientId
    sockAuth := setAssoc st1.sockAuth w true }

/-- Embedding of `ClientManager.removeClient(clientId)`. -/
def removeClient (st : RegistryState) (clientId : String) : RegistryState :=
  { st with clients := delAssoc st.clients clientId }

/-- Embedding of the transport close handler in server.ts:
`if (extWs.clientId) clientManager.removeClient(extWs.clientId)`.
The socket itself is no longer OPEN. -/
def closeEvent (st : RegistryState) (w : Nat) : RegistryState :=
  let st1 := { st with sockOpen := setAssoc st.sockOpen w false }
  match getAssoc st1.sockClientId w with
  | some cid => if cid == "" then st1 else removeClient st1 cid
  | none => st1

/-- Embedding of `ClientManager.findAvailableClient`: first registry entry
whose socket is OPEN and authenticated (the `modelId` hint is unused). -/
def findAvailableClient (st : RegistryState) : Option Nat :=
  (st.clients.find? (fun e => sockIsOpen st e.2 && sockIsAuth st e.2)).map
    (fun e => e.2)

/-!
## Completions controller (server api/controllers/completions.ts) together
with the stream_chunk / stream_end routing of message-handler.ts

The `pendingRequests` map of the completions controller, its registered
timeout durations, and `processCompletionResponse` are embedded as an
explicit state machine.  Outputs record everything observable: SSE writes
and `res.end()`, promise resolution/rejection (which the handler turns into
an HTTP reply via the error middleware), warn logs for unknown request ids,
thrown `TypeError`s (caught by the ws message loop, which answers the
Worker with an `Invalid message format` error frame), and `cancel_request`
frames sent to the Worker.
-/

inductive EntryKind where
  | unary : EntryKind
  | stream : EntryKind
deriving DecidableEq, Repr

/-- One `pendingRequests` entry: a unary entry holds `resolve`/`reject`, a
streaming entry holds `handleStream`; both hold the timeout handle whose
duration was fixed at registration. -/
structure Entry where
  kind : EntryKind
  timeoutMs : Nat
deriving DecidableEq, Repr

structure CompTable where
  table : List (String × Entry)

def CompTable.empty : CompTable := ⟨[]⟩

/-- `setTimeout` duration in `completionHandler` (60 second timeout). -/
def COMPLETION_TIMEOUT_MS : Nat := 60000

/-- `setTimeout` duration in `completionStreamHandler` (5 minute timeout). -/
def STREAM_TIMEOUT_MS : Nat := 300000

/-- `setTimeout` duration in `embeddingsHandler` (30 second timeout). -/
def EMBEDDINGS_TIMEOUT_MS : Nat := 30000

/-- `setTimeout` duration in `listModelsHandler` (10 second timeout). -/
def MODELS_TIMEOUT_MS : Nat := 10000

/-- Registration done by `completionHandler` before sending the
`completion_request` frame. -/
def registerUnary (st : CompTable) (rid : String) : CompTable :=
  ⟨setAssoc st.table rid ⟨EntryKind.unary, COMPLETION_TIMEOUT_MS⟩⟩

/-- Registration done by `completionStreamHandler` before sending the
`completion_request` frame with `stream: true`. -/
def registerStream (st : CompTable) (rid : String) : CompTable :=
  ⟨setAssoc st.table rid ⟨EntryKind.stream, STREAM_TIMEOUT_MS⟩⟩

inductive CompEvent where
  /-- `processCompletionResponse({requestId, data, error, stream})`. -/
  | responseMsg (rid : String) (data : Option Json) (error : Option String)
      (stream : Bool) : CompEvent
  /-- A `stream_chunk{requestId, data}` frame arriving at
  `handleStreamChunk` in message-handler.ts. -/
  | chunkMsg (rid : String) (data : Json) : CompEvent
  /-- A `stream_end{requestId}` frame arriving at `handleStreamEnd`. -/
  | endMsg (rid : String) : CompEvent
  /-- The entry's `setTimeout` callback firing. -/
  | timerFire (rid : String) : CompEvent
  /-- `req.on('close')` firing in `completionStreamHandler`. -/
  | clientClosed (rid : String) : CompEvent

inductive CompOut where
  | sseWrite (rid : String) (text : String) : CompOut
  /-- `res.end()`. -/
  | sseEnd (rid : String) : CompOut
  /-- Promise resolved: the awaiting handler replies `res.json(data)`. -/
  | resolveOut (rid : String) (data : Option Json) : CompOut
  /-- Promise rejected with `ApiError(status, message)`: the handler's catch
  forwards it to the error middleware. -/
  | rejectOut (rid : String) (status : Nat) (message : String) : CompOut
  /-- `logger.warn` for an operation on an unknown request id. -/
  | warnLog (rid : String) : CompOut
  /-- A `TypeError` thrown out of the processor (entry shape mismatch),
  caught by the ws read loop in server.ts. -/
  | jsError (rid : String) : CompOut
  /-- `cancel_request{requestId}` frame sent to the Worker. -/
  | wsCancel (rid : String) : CompOut

/-- Evaluation of `chunk.choices && chunk.choices[0].finish_reason` in
`handleStream`.  `none` models a thrown `TypeError` (property access on
`undefined`), `some b` the boolean outcome. -/
def finishReasonCheck (chunk : Json) : Option Bool :=
  match jsonGet chunk "choices" with
  | none => some false
  | some choices =>
    if !jsTruthy choices then some false
    else
      match choices with
      | Json.arr (c0 :: _) => some (jsTruthyOpt (jsonGet c0 "finish_reason"))
      | Json.arr [] => none
      | Json.str _ => some false
      | Json.obj _ =>
        match jsonGet choices "0" with
        | some c0 => some (jsTruthyOpt (jsonGet c0 "finish_reason"))
        | none => none
      | _ => none

/-- Run of `handleStream(chunk)` from `completionStreamHandler`:
one SSE write of `data: <JSON.stringify(chunk)>`, then the final-chunk
check; on a final chunk the `[DONE]` event is written and the response
ended.  Returns the JS result (`none` = a `TypeError` was thrown). -/
def handleStreamRun (rid : String) (dataOpt : Option Json) :
    Option Bool × List CompOut :=
  let text := match dataOpt with
    | some d => jsonStringify d
    | none => "undefined"
  let w := CompOut.sseWrite rid ("data: " ++ text ++ "\n\n")
  match dataOpt with
  | none => (none, [w, CompOut.jsError rid])
  | some d =>
    match finishReasonCheck d with
    | none => (none, [w, CompOut.jsError rid])
    | some true =>
      (some true, [w, CompOut.sseWrite rid "data: [DONE]\n\n", CompOut.sseEnd rid])
    | some false => (some false, [w])

/-- Embedding of `processCompletionResponse(message)` with
`message = {requestId, data, error, stream}` (a `streamEnd` field, if any,
is ignored by the destructuring). -/
def procCompletionResponse (st : CompTable) (rid : String) (data : Option Json)
    (error : Option String) (stream : Bool) : CompTable × List CompOut :=
  match getAssoc st.table rid with
  | none => (st, [CompOut.warnLog rid])
  | some e =>
    match error with
    | some msg =>
      if stream then
        match e.kind with
        | EntryKind.stream =>
          -- request.handleStream({error: ...}); clearTimeout; delete
          let (_, outs) :=
            handleStreamRun rid (some (Json.obj [("error", Json.str msg)]))
          (⟨delAssoc st.table rid⟩, outs)
        | EntryKind.unary =>
          -- request.handleStream is undefined: TypeError before any cleanup
          (st, [CompOut.jsError rid])
      else
        match e.kind with
        | EntryKind.unary =>
          (⟨delAssoc st.table rid⟩, [CompOut.rejectOut rid 500 msg])
        | EntryKind.stream =>
          -- request.reject is undefined: TypeError before any cleanup
          (st, [CompOut.jsError rid])
    | none =>
      if stream then
        match e.kind with
        | EntryKind.stream =>
          match handleStreamRun rid data with
          | (none, outs) => (st, outs)
          | (some true, outs) => (⟨delAssoc st.table rid⟩, outs)
          | (some false, outs) => (st, outs)
        | EntryKind.unary => (st, [CompOut.jsError rid])
      else
        match e.kind with
        | EntryKind.unary =>
          (⟨delAssoc st.table rid⟩, [CompOut.resolveOut rid data])
        | EntryKind.stream =>
          -- request.resolve is undefined: TypeError before any cleanup
          (st, [CompOut.jsError rid])

/-- One step of the completions pending table. -/
def compStep (st : CompTable) (ev : CompEvent) : CompTable × List CompOut :=
  match ev with
  | CompEvent.responseMsg rid data error stream =>
    procCompletionResponse st rid data error stream
  | CompEvent.chunkMsg rid d =>
    -- handleStreamChunk: a tracked completion request is forwarded as
    -- {requestId, data, stream: true}; an untracked id falls back to
    -- prefix / UUID routing which ends in a warn log for this id
    if (getAssoc st.table rid).isSome then
      procCompletionResponse st rid (some d) none true
    else (st, [CompOut.warnLog rid])
  | CompEvent.endMsg rid =>
    -- handleStreamEnd: a tracked request is forwarded as
    -- {requestId, streamEnd: true}, i.e. data/error/stream all undefined
    if (getAssoc st.table rid).isSome then
      procCompletionResponse st rid none none false
    else (st, [CompOut.warnLog rid])
  | CompEvent.timerFire rid =>
    match getAssoc st.table rid with
    | none => (st, [])
    | some e =>
      match e.kind with
      | EntryKind.unary =>
        -- pendingRequests.delete; reject(new ApiError(504, 'Request timeout'))
        (⟨delAssoc st.table rid⟩, [CompOut.rejectOut rid 504 "Request timeout"])
      | EntryKind.stream =>
        -- pendingRequests.delete; res.write('data: [ERROR] Request timeout');
        -- res.end()
        (⟨delAssoc st.table rid⟩,
         [CompOut.sseWrite rid "data: [ERROR] Request timeout\n\n",
          CompOut.sseEnd rid])
  | CompEvent.clientClosed rid =>
    match getAssoc st.table rid with
    | none => (st, [])
    | some _ =>
      -- clearTimeout; delete; send cancel_request to the worker
      (⟨delAssoc st.table rid⟩, [CompOut.wsCancel rid])

/-- Run a trace of events, accumulating outputs in order. -/
def compRun (st : CompTable) : List CompEvent → CompTable × List CompOut
  | [] => (st, [])
  | ev :: rest =>
    let (st1, outs1) := compStep st ev
    let (st2, outs2) := compRun st1 rest
    (st2, outs1 ++ outs2)

/-- The SSE texts written for request `rid`, in order. -/
def sseTextsFor (rid : String) (outs : List CompOut) : List String :=
  outs.filterMap (fun o =>
    match o with
    | CompOut.sseWrite r t => if r == rid then some t else none
    | _ => none)

/-- Was `res.end()` called for `rid`. -/
def endedFor (rid : String) (outs : List CompOut) : Bool :=
  outs.any (fun o =>
    match o with
    | CompOut.sseEnd r => r == rid
    | _ => false)

/-- Count of terminal outcomes delivered to the sink of `rid`
(resolve, reject, or stream finish). -/
def terminalCount (rid : String) (outs : List CompOut) : Nat :=
  (outs.filter (fun o =>
    match o with
    | CompOut.resolveOut r _ => r == rid
    | CompOut.rejectOut r _ _ => r == rid
    | CompOut.sseEnd r => r == rid
    | _ => false)).length

/-- 1 if `rid` is pending in `st`, else 0. -/
def presenceNat (st : CompTable) (rid : String) : Nat :=
  if (getAssoc st.table rid).isSome then 1 else 0

/-!
## Models controller (server api/controllers/models.ts): cache and pending
table
-/

/-- Body served by `listModelsHandler` when no client is available
(`res.json({...})`, default status 200). -/
def noClientsBody : Json :=
  Json.obj [("object", Json.str "list"), ("data", Json.arr []),
            ("message", Json.str "No LM Studio clients connected")]

structure ModelsState where
  /-- `modelsCache` (initially `null`). -/
  cache : Option Json
  /-- `modelsCacheExpiry` (initially 0, milliseconds since epoch). -/
  cacheExpiry : Nat
  /-- The controller's `pendingRequests` map: rid -> timeout duration. -/
  pending : List (String × Nat)

def ModelsState.initial : ModelsState := ⟨none, 0, []⟩

/-- `CACHE_TTL_MS` (1 minute). -/
def CACHE_TTL_MS : Nat := 60000

inductive ModelsOut where
  /-- `res.json(...)` reply (status 200 unless set otherwise). -/
  | served (reply : HttpReply) : ModelsOut
  /-- A `models_request{requestId}` frame was sent to the chosen client and
  the pending entry was registered with the 10 s deadline. -/
  | sentFrame (rid : String) : ModelsOut

/-- Embedding of the dispatch part of `listModelsHandler`: cache check,
no-client default, or registration + `models_request` frame. `now` is
`Date.now()` at entry; `client` is `clientManager.findAvailableClient()`. -/
def listModels (st : ModelsState) (now : Nat) (client : Option Nat)
    (rid : String) : ModelsState × ModelsOut :=
  match st.cache with
  | some payload =>
    if st.cacheExpiry > now then (st, ModelsOut.served ⟨200, payload⟩)
    else
      match client with
      | none => (st, ModelsOut.served ⟨200, noClientsBody⟩)
      | some _ =>
        ({ st with pending := setAssoc st.pending rid MODELS_TIMEOUT_MS },
         ModelsOut.sentFrame rid)
  | none =>
    match client with
    | none => (st, ModelsOut.served ⟨200, noClientsBody⟩)
    | some _ =>
      ({ st with pending := setAssoc st.pending rid MODELS_TIMEOUT_MS },
       ModelsOut.sentFrame rid)

inductive MOut where
  | resolved (rid : String) (reply : HttpReply) : MOut
  | rejected (rid : String) (status : Nat) (message : String) : MOut
  | warnLog (rid : String) : MOut

/-- Embedding of `processModelsResponse` together with the awaiting
handler continuation: on success the handler caches the payload with
expiry `reqNow + CACHE_TTL_MS` (`reqNow` is the `now` captured when the
request was dispatched) and serves it with status 200. -/
def modelsResponse (st : ModelsState) (rid : String) (data : Json)
    (error : Option String) (reqNow : Nat) : ModelsState × List MOut :=
  match getAssoc st.pending rid with
  | none => (st, [MOut.warnLog rid])
  | some _ =>
    match error with
    | some msg =>
      ({ st with pending := delAssoc st.pending rid },
       [MOut.rejected rid 500 msg])
    | none =>
      ({ st with pending := delAssoc st.pending rid,
                 cache := some data, cacheExpiry := reqNow + CACHE_TTL_MS },
       [MOut.resolved rid ⟨200, data⟩])

/-- The `setTimeout` callback in `listModelsHandler`: delete and reject
with `ApiError(504, 'Request timeout')`; the cache is untouched. -/
def modelsTimerFire (st : ModelsState) (rid : String) : ModelsState × List MOut :=
  match getAssoc st.pending rid with
  | none => (st, [])
  | some _ =>
    ({ st with pending := delAssoc st.pending rid },
     [MOut.rejected rid 504 "Request timeout"])

/-!
## Handler entry points for the no-client branch (C5) and registered
deadlines (C7)
-/

inductive HandlerStart where
  /-- The handler threw before dispatch; the error middleware replies. -/
  | errorReply (r : HttpReply) : HandlerStart
  /-- The handler registered a pending entry with this deadline and sent
  the typed request frame. -/
  | dispatched (rid : String) (timeoutMs : Nat) (kind : EntryKind) : HandlerStart

/-- Head of `completionHandler`: no client means
`throw new ApiError(503, 'No available LM Studio clients')`. -/
def completionHandlerStart (client : Option Nat) (rid : String) : HandlerStart :=
  match client with
  | none => HandlerStart.errorReply ⟨503, errorBody 503 "No available LM Studio clients"⟩
  | some _ => HandlerStart.dispatched rid COMPLETION_TIMEOUT_MS EntryKind.unary

/-- Head of `completionStreamHandler`. -/
def completionStreamHandlerStart (client : Option Nat) (rid : String) : HandlerStart :=
  match client with
  | none => HandlerStart.errorReply ⟨503, errorBody 503 "No available LM Studio clients"⟩
  | some _ => HandlerStart.dispatched rid STREAM_TIMEOUT_MS EntryKind.stream

/-- Head of `embeddingsHandler` (api/controllers/embeddings.ts). -/
def embeddingsHandlerStart (client : Option Nat) (rid : String) : HandlerStart :=
  match client with
  | none => HandlerStart.errorReply ⟨503, errorBody 503 "No available LM Studio clients"⟩
  | some _ => HandlerStart.dispatched rid EMBEDDINGS_TIMEOUT_MS EntryKind.unary

/-- Modelled from the spec: the chat controller
(api/controllers/chat.ts, `chatCompletionHandler`) is referenced by the
routes and the message handler but its source file is not in the tree.
Per the spec it mirrors the completion controller: no client means a 503
`No available LM Studio clients` error, a unary chat request gets a 60 s
deadline. -/
def chatCompletionHandlerStart (client : Option Nat) (rid : String) : HandlerStart :=
  match client with
  | none => HandlerStart.errorReply ⟨503, errorBody 503 "No available LM Studio clients"⟩
  | some _ => HandlerStart.dispatched rid 60000 EntryKind.unary

/-!
## Worker side (client proxy-connection.ts)
-/

inductive WorkerFrame where
  | streamChunk (rid : String) (data : String) : WorkerFrame
  | streamEnd (rid : String) : WorkerFrame
  | errorFrame (rid : String) (msg : String) : WorkerFrame
deriving DecidableEq, Repr

structure WorkerState where
  /-- `ProxyConnection.activeStreams` key set: request ids with a live
  upstream PassThrough whose data/end/error callbacks are attached. -/
  activeStreams : List String
  /-- Frames sent to the Edge, in order. -/
  sent : List WorkerFrame

/-- The `if`/`else if` dispatch chain of `ProxyConnection.handleMessage`:
it tests `auth_result`, the four `*_request` tags, `error`,
`stream_chunk` and `stream_end`.  Any other tag — including
`cancel_request` — matches no branch and the message is dropped. -/
inductive WorkerAction where
  | authResultHandled | requestHandled | errorHandled
  | chunkHandled | endHandled | ignored
deriving DecidableEq, Repr

def workerDispatch (mtype : String) : WorkerAction :=
  if mtype == "auth_result" then WorkerAction.authResultHandled
  else if mtype == "chat_request" || mtype == "completion_request"
       || mtype == "embeddings_request" || mtype == "models_request" then
    WorkerAction.requestHandled
  else if mtype == "error" then WorkerAction.errorHandled
  else if mtype == "stream_chunk" then WorkerAction.chunkHandled
  else if mtype == "stream_end" then WorkerAction.endHandled
  else WorkerAction.ignored

inductive WorkerEvent where
  /-- An Edge→Worker frame delivered to `ProxyConnection.handleMessage`. -/
  | incoming (mtype : String) (rid : String) : WorkerEvent
  /-- The upstream PassThrough for `rid` delivers a chunk
  (`stream.on('data')`). -/
  | upstreamData (rid : String) (data : String) : WorkerEvent
  /-- The upstream PassThrough for `rid` ends (`stream.on('end')`). -/
  | upstreamEnd (rid : String) : WorkerEvent

/-- One step of the Worker connection.  A streaming request registers its
PassThrough in `activeStreams`; upstream callbacks fire only while the
stream is registered (a destroyed stream would have been removed). -/
def workerStep (st : WorkerState) (ev : WorkerEvent) : WorkerState :=
  match ev with
  | WorkerEvent.incoming mtype rid =>
    match workerDispatch mtype with
    | WorkerAction.requestHandled =>
      -- handleStreamingRequest stores the stream; unary requests are
      -- answered without touching activeStreams (modelled as the
      -- streaming case here: this event is only used with stream:true)
      { st with activeStreams := rid :: st.activeStreams }
    | WorkerAction.ignored => st
    | _ => st
  | WorkerEvent.upstreamData rid data =>
    if st.activeStreams.contains rid then
      { st with sent := st.sent ++ [WorkerFrame.streamChunk rid data] }
    else st
  | WorkerEvent.upstreamEnd rid =>
    if st.activeStreams.contains rid then
      { st with sent := st.sent ++ [WorkerFrame.streamEnd rid],
                activeStreams := st.activeStreams.erase rid }
    else st

/-- Run a trace of Worker events. -/
def workerRun (st : WorkerState) : List WorkerEvent → WorkerState
  | [] => st
  | ev :: rest => workerRun (workerStep st ev) rest

/-!
## Claim-side definitions

These follow the wording of the specification and are compared against the
embedded code.
-/

/-- The `data` field of a `stream_chunk` frame "verbatim": the raw string
for string payloads (the Worker sends `data : string`), the JSON fragment
text otherwise. -/
def dataVerbatim : Json → String
  | Json.str s => s
  | v => jsonStringify v

/-- Did the trace deliver a `stream_end` for `rid`. -/
def traceHasEnd (rid : String) (trace : List CompEvent) : Bool :=
  trace.any (fun ev =>
    match ev with
    | CompEvent.endMsg r => r == rid
    | _ => false)

/-- The SSE `data:` lines the specification promises for a stream:
one event per chunk with the data verbatim, in receipt order, and
`[DONE]` appended iff `stream_end` was received. -/
def specC1Lines (rid : String) (trace : List CompEvent) : List String :=
  (trace.filterMap (fun ev =>
    match ev with
    | CompEvent.chunkMsg r d =>
      if r == rid then some ("data: " ++ dataVerbatim d ++ "\n\n") else none
    | _ => none))
  ++ (if traceHasEnd rid trace then ["data: [DONE]\n\n"] else [])

/-- Claim C1 as stated, for one freshly registered streaming request. -/
def claimC1Pred (rid : String) (trace : List CompEvent) : Prop :=
  sseTextsFor rid (compRun (registerStream CompTable.empty rid) trace).2
      = specC1Lines rid trace
  ∧ endedFor rid (compRun (registerStream CompTable.empty rid) trace).2
      = traceHasEnd rid trace

/-- A tag's case-insensitive (after trimming) match against the known tag
set, as the claim describes it. -/
def matchesKnownTag (t : String) : Option String :=
  if messageTypeValues.contains (jsLowerTrim t) then some (jsLowerTrim t)
  else none

/-- Claim C8 as stated, restricted to tags with no case-insensitive match:
such a frame causes exactly the `Unknown message type: <tag>` error frame. -/
def claimC8UnknownTag (t : String) : Prop :=
  matchesKnownTag t = none →
    handleMessageDispatch (some t) =
      DispatchResult.errorFrame ("Unknown message type: " ++ t)

/-- Claim C3 as stated, for a request carrying
`Authorization: Bearer <cred>`: accepted iff the credential is a valid
token or byte-equal to the API key, otherwise the 401 `Invalid API key`
body. -/
def claimC3Pred (cfg : AuthConfig) (cred : String) : Prop :=
  authHttpResult cfg (some ("Bearer " ++ cred)) =
    (if cfg.validToken cred = true ∨ cred = cfg.apiKey then none
     else some ⟨401, errorBody 401 "Invalid API key"⟩)

/-- Claim C5 as stated for `GET /v1/models` with no available client:
a 503 reply carrying the no-clients body. -/
def claimC5ModelsPred (st : ModelsState) (now : Nat) (rid : String) : Prop :=
  (listModels st now none rid).2 = ModelsOut.served ⟨503, noClientsBody⟩

/-- Does the output list contain `rejectOut rid status msg` (the client
receiving that error status through the error middleware). -/
def hasRejectOut (rid : String) (status : Nat) (msg : String)
    (outs : List CompOut) : Bool :=
  outs.any (fun o =>
    match o with
    | CompOut.rejectOut r s m => r == rid && s == status && m == msg
    | _ => false)

/-- Claim C7 as stated at a streaming entry's deadline: the client
receives a 504 `Request timeout` response. -/
def claimC7StreamTimeout (rid : String) : Prop :=
  hasRejectOut rid 504 "Request timeout"
    (compStep (registerStream CompTable.empty rid) (CompEvent.timerFire rid)).2 = true

/-- Keys of an association list are pairwise distinct (the JS `Map`
invariant). -/
def UniqKeys {β : Type} (m : List (String × β)) : Prop :=
  (m.map Prod.fst).Nodup

/-!
## Helper lemmas
-/

theorem isPrefixL_append (pat rest : List Char) :
    isPrefixL pat (pat ++ rest) = true := by
  induction pat with
  | nil => rfl
  | cons p ps ih => simp [isPrefixL, ih]

theorem hasSubL_false_isPrefixL (pat s : List Char)
    (h : hasSubL pat s = false) : isPrefixL pat s = false := by
  cases s with
  | nil => simpa [hasSubL] using h
  | cons c rest =>
    simp only [hasSubL, Bool.or_eq_false_iff] at h
    exact h.1

theorem replaceFirstL_of_hasSubL_false (pat s : List Char)
    (h : hasSubL pat s = false) : replaceFirstL pat s = s := by
  induction s with
  | nil => rfl
  | cons c rest ih =>
    simp only [hasSubL, Bool.or_eq_false_iff] at h
    simp [replaceFirstL, h.1, ih h.2]

theorem getAssoc_cons_of_ne {β : Type} (e : String × β) (rest : List (String × β))
    (r : String) (hne : e.1 ≠ r) : getAssoc (e :: rest) r = getAssoc rest r := by
  simp only [getAssoc]
  rw [if_neg (by simp [hne])]

theorem getAssoc_delAssoc_ne {β : Type} (m : List (String × β)) (k r : String)
    (hne : r ≠ k) : getAssoc (delAssoc m k) r = getAssoc m r := by
  induction m with
  | nil => rfl
  | cons e rest ih =>
    by_cases hk : e.1 = k
    · have hd : delAssoc (e :: rest) k = rest := by
        simp [delAssoc, hk]
      have hr : e.1 ≠ r := by
        rw [hk]; exact fun hh => hne hh.symm
      rw [hd, getAssoc_cons_of_ne e rest r hr]
    · have hd : delAssoc (e :: rest) k = e :: delAssoc rest k := by
        simp [delAssoc, hk]
      rw [hd]
      by_cases her : e.1 = r
      · simp [getAssoc, her]
      · rw [getAssoc_cons_of_ne e (delAssoc rest k) r her,
            getAssoc_cons_of_ne e rest r her]
        exact ih

theorem getAssoc_eq_none_of_not_mem_keys {β : Type} (m : List (String × β))
    (k : String) (h : k ∉ m.map Prod.fst) : getAssoc m k = none := by
  induction m with
  | nil => rfl
  | cons e rest ih =>
    simp only [List.map_cons, List.mem_cons, not_or] at h
    rw [getAssoc_cons_of_ne e rest k (fun hh => h.1 hh.symm)]
    exact ih h.2

theorem delAssoc_sublist {β : Type} (m : List (String × β)) (k : String) :
    (delAssoc m k).Sublist m := by
  induction m with
  | nil => simp [delAssoc]
  | cons e rest ih =>
    simp only [delAssoc]
    by_cases hk : e.1 = k
    · rw [if_pos (by simp [hk])]
      exact List.sublist_cons_self e rest
    · rw [if_neg (by simp [hk])]
      exact List.Sublist.cons₂ e ih

theorem uniqKeys_delAssoc {β : Type} (m : List (String × β)) (k : String)
    (h : UniqKeys m) : UniqKeys (delAssoc m k) :=
  List.Nodup.sublist (List.Sublist.map Prod.fst (delAssoc_sublist m k)) h

theorem getAssoc_delAssoc_self {β : Type} (m : List (String × β)) (k : String)
    (h : UniqKeys m) : getAssoc (delAssoc m k) k = none := by
  induction m with
  | nil => rfl
  | cons e rest ih =>
    simp only [UniqKeys, List.map_cons, List.nodup_cons] at h
    by_cases hk : e.1 = k
    · have hd : delAssoc (e :: rest) k = rest := by
        simp [delAssoc, hk]
      rw [hd]
      exact getAssoc_eq_none_of_not_mem_keys rest k (hk ▸ h.1)
    · have hd : delAssoc (e :: rest) k = e :: delAssoc rest k := by
        simp [delAssoc, hk]
      rw [hd, getAssoc_cons_of_ne e (delAssoc rest k) k hk]
      exact ih h.2

/-!
## Claim C3: HTTP-side auth
-/

/-- C3 counterexample: with the configured API key `"k"` and no valid
tokens, the header `Authorization: Bearer k` presents a credential
byte-equal to the API key, so the claim says the request is accepted; the
code takes the Bearer branch, fails JWT verification and rejects with 401
`Invalid or expired token`, never comparing against the API key. -/
theorem claim_C3_counterexample :
    ¬ claimC3Pred ⟨"k", fun _ => false⟩ "k" := by
  intro h
  simp only [claimC3Pred] at h
  rw [if_pos (Or.inr trivial)] at h
  exact Option.noConfusion h

/-- The bodies "Invalid or expired token" and "Invalid API key" also differ,
so the counterexample is not an artifact of the acceptance test alone: the
code's reply on that input is the Bearer-branch rejection. -/
theorem claim_C3_counterexample_reply :
    authHttpResult ⟨"k", fun _ => false⟩ (some "Bearer k") =
      some ⟨401, errorBody 401 "Invalid or expired token"⟩ := rfl

/-- C3 (amended): a missing or empty Authorization header (the code's
JS-falsy `if (!authHeader)` guard) is rejected 401
`Authorization header missing`.  A header starting with `Bearer ` is
accepted iff its second space-separated word verifies as a valid signed
token, and otherwise rejected 401 `Invalid or expired token` (the API key
is never consulted).  A nonempty header not starting with `Bearer ` is
accepted iff the header with its first `Bearer ` occurrence removed is
byte-equal to the configured API key, and otherwise rejected 401 with body
`{error:{message:"Invalid API key", type:"api_error", code:401}}`. -/
theorem claim_C3_theorem (cfg : AuthConfig) :
    authHttpResult cfg none =
      some ⟨401, errorBody 401 "Authorization header missing"⟩
    ∧ authHttpResult cfg (some "") =
      some ⟨401, errorBody 401 "Authorization header missing"⟩
    ∧ (∀ cred : String,
        authHttpResult cfg (some ("Bearer " ++ cred)) =
          (if cfg.validToken ((("Bearer " ++ cred).splitOn " ").getD 1 "")
           then none
           else some ⟨401, errorBody 401 "Invalid or expired token"⟩))
    ∧ (∀ h : String, h ≠ "" → jsStartsWith h "Bearer " = false →
        authHttpResult cfg (some h) =
          (if jsReplaceFirst h "Bearer " = cfg.apiKey then none
           else some ⟨401, errorBody 401 "Invalid API key"⟩)) := by
  refine ⟨rfl, rfl, ?_, ?_⟩
  · intro cred
    have hpre : jsStartsWith ("Bearer " ++ cred) "Bearer " = true := by
      simp only [jsStartsWith, String.data_append]
      exact isPrefixL_append _ _
    have hne : ("Bearer " ++ cred) ≠ "" := by
      intro he
      rw [he] at hpre
      exact absurd hpre (by decide)
    have hb0 : (("Bearer " ++ cred) == "") = false := by simpa using hne
    simp only [authHttpResult, authMiddleware, hpre, hb0]
    cases hv : cfg.validToken ((("Bearer " ++ cred).splitOn " ").getD 1 "") <;>
      simp [hv]
  · intro h hne hb
    have hb0 : (h == "") = false := by simpa using hne
    simp only [authHttpResult, authMiddleware, hb, hb0]
    by_cases hk : jsReplaceFirst h "Bearer " = cfg.apiKey
    · simp [hk]
    · have hbeq : (jsReplaceFirst h "Bearer " == cfg.apiKey) = false := by
        simpa using hk
      simp [hbeq, hk]

/-- C3 witness: concrete instantiation of the amended theorem. -/
theorem claim_C3_theorem_witness :
    authHttpResult ⟨"k", fun _ => false⟩ (some "k") = none := by
  have h0 := claim_C3_theorem ⟨"k", fun _ => false⟩
  have h1 := h0.2.2.2 "k" (by decide) (by decide)
  simpa using h1

/-!
## Claim C9: API-key branch of the auth middleware
-/

/-- C9: with a configured (non-empty, as `validateConfig` requires) API
key, for a header that does not start with `Bearer ` the middleware
accepts exactly when the header with its first embedded `Bearer `
occurrence removed is byte-equal to the configured API key; consequently a
request presenting the bare API key (for a key not containing `Bearer `)
is accepted. -/
theorem claim_C9_theorem (cfg : AuthConfig) (h : String)
    (hkey : cfg.apiKey ≠ "")
    (hb : jsStartsWith h "Bearer " = false) :
    (authMiddleware cfg (some h) = AuthOutcome.accepted ↔
      jsReplaceFirst h "Bearer " = cfg.apiKey)
    ∧ (jsIncludes cfg.apiKey "Bearer " = false →
        authMiddleware cfg (some cfg.apiKey) = AuthOutcome.accepted) := by
  constructor
  · by_cases hhe : h = ""
    · subst hhe
      constructor
      · intro habs
        exact AuthOutcome.noConfusion habs
      · intro hrep
        have hz : jsReplaceFirst "" "Bearer " = "" := by decide
        rw [hz] at hrep
        exact absurd hrep.symm hkey
    · have hb0 : (h == "") = false := by simpa using hhe
      simp only [authMiddleware, hb, hb0]
      by_cases hk : jsReplaceFirst h "Bearer " = cfg.apiKey
      · simp [hk]
      · have hbeq : (jsReplaceFirst h "Bearer " == cfg.apiKey) = false := by
          simpa using hk
        simp [hbeq, hk]
  · intro hsub
    have hsubl : hasSubL "Bearer ".data cfg.apiKey.data = false := hsub
    have hb2 : jsStartsWith cfg.apiKey "Bearer " = false :=
      hasSubL_false_isPrefixL _ _ hsubl
    have hrep : jsReplaceFirst cfg.apiKey "Bearer " = cfg.apiKey := by
      simp only [jsReplaceFirst, replaceFirstL_of_hasSubL_false _ _ hsubl]
    have hb0 : (cfg.apiKey == "") = false := by simpa using hkey
    simp only [authMiddleware, hb2, hb0]
    simp [hrep]

/-- C9 witness: a bare API key with no `Bearer ` prefix is accepted. -/
theorem claim_C9_theorem_witness :
    authMiddleware ⟨"secret", fun _ => false⟩ (some "secret") =
      AuthOutcome.accepted := by
  have h0 := claim_C9_theorem ⟨"secret", fun _ => false⟩ "secret" (by decide)
    (by decide)
  exact h0.2 (by decide)

/-!
## Claim C8: inbound frame tag validation and dispatch
-/

/-- C8 counterexample: the tag `my_stream_chunk_x` matches no known tag
under case-insensitive comparison after trimming, yet the special-case
substring check normalizes it to `stream_chunk` and dispatches it instead
of sending the `Unknown message type` error frame. -/
theorem claim_C8_counterexample :
    ¬ claimC8UnknownTag "my_stream_chunk_x" := by
  intro h
  have hm : matchesKnownTag "my_stream_chunk_x" = none := by decide
  have := h hm
  exact absurd this (by decide)

/-- C8 (amended): a frame with a missing or empty `type` gets exactly one
error frame `Invalid message format: missing type` (not the
`Unknown message type` text).  A nonempty tag whose lowercased trimmed form
is a known tag with a `case` arm is dispatched as that tag; a known tag
without a `case` arm gets the `Unknown message type: <tag>` error frame
from the switch default.  An unknown tag containing `stream_chunk`
(resp. `stream_end`) as a substring is dispatched as `stream_chunk`
(resp. `stream_end`); any other unknown tag gets exactly one error frame
`Unknown message type: <tag>`. -/
theorem claim_C8_theorem :
    handleMessageDispatch none =
      DispatchResult.errorFrame "Invalid message format: missing type"
    ∧ handleMessageDispatch (some "") =
      DispatchResult.errorFrame "Invalid message format: missing type"
    ∧ (∀ t : String, t ≠ "" →
        messageTypeValues.contains (jsLowerTrim t) = true →
        handledTags.contains (jsLowerTrim t) = true →
        handleMessageDispatch (some t) = DispatchResult.handled (jsLowerTrim t))
    ∧ (∀ t : String, t ≠ "" →
        messageTypeValues.contains (jsLowerTrim t) = true →
        handledTags.contains (jsLowerTrim t) = false →
        handleMessageDispatch (some t) =
          DispatchResult.errorFrame ("Unknown message type: " ++ t))
    ∧ (∀ t : String, t ≠ "" →
        messageTypeValues.contains t = false →
        messageTypeValues.contains (jsLowerTrim t) = false →
        jsIncludes (jsLowerTrim t) "stream_chunk" = true →
        handleMessageDispatch (some t) = DispatchResult.handled "stream_chunk")
    ∧ (∀ t : String, t ≠ "" →
        messageTypeValues.contains t = false →
        messageTypeValues.contains (jsLowerTrim t) = false →
        jsIncludes (jsLowerTrim t) "stream_chunk" = false →
        jsIncludes (jsLowerTrim t) "stream_end" = true →
        handleMessageDispatch (some t) = DispatchResult.handled "stream_end")
    ∧ (∀ t : String, t ≠ "" →
        messageTypeValues.contains t = false →
        messageTypeValues.contains (jsLowerTrim t) = false →
        jsIncludes (jsLowerTrim t) "stream_chunk" = false →
        jsIncludes (jsLowerTrim t) "stream_end" = false →
        handleMessageDispatch (some t) =
          DispatchResult.errorFrame ("Unknown message type: " ++ t)) := by
  refine ⟨rfl, rfl, ?_, ?_, ?_, ?_, ?_⟩
  · intro t hne hcl hht
    simp at hcl hht
    simp [handleMessageDispatch, hne, hcl, hht]
  · intro t hne hcl hht
    simp at hcl hht
    simp [handleMessageDispatch, hne, hcl, hht]
  · intro t hne hct hcl hic
    have hlc : jsLowerTrim t ≠ "stream_chunk" := by
      intro he
      rw [he] at hcl
      exact absurd hcl (by decide)
    simp at hct hcl
    simp [handleMessageDispatch, hne, hct, hcl, hic, hlc]
  · intro t hne hct hcl hic hie
    have hlc : jsLowerTrim t ≠ "stream_chunk" := by
      intro he
      rw [he] at hcl
      exact absurd hcl (by decide)
    have hle : jsLowerTrim t ≠ "stream_end" := by
      intro he
      rw [he] at hcl
      exact absurd hcl (by decide)
    simp at hct hcl
    simp [handleMessageDispatch, hne, hct, hcl, hic, hie, hlc, hle]
  · intro t hne hct hcl hic hie
    have hlc : jsLowerTrim t ≠ "stream_chunk" := by
      intro he
      rw [he] at hcl
      exact absurd hcl (by decide)
    have hle : jsLowerTrim t ≠ "stream_end" := by
      intro he
      rw [he] at hcl
      exact absurd hcl (by decide)
    simp at hct hcl
    simp [handleMessageDispatch, hne, hct, hcl, hic, hie, hlc, hle]

/-- C8 witness: a mixed-case known tag is dispatched case-insensitively;
an unrelated unknown tag gets the `Unknown message type` error frame. -/
theorem claim_C8_theorem_witness :
    handleMessageDispatch (some "PING") = DispatchResult.handled "ping"
    ∧ handleMessageDispatch (some "bogus_tag") =
        DispatchResult.errorFrame "Unknown message type: bogus_tag" := by
  constructor
  · have h := claim_C8_theorem.2.2.1 "PING" (by decide) (by decide) (by decide)
    simpa using h
  · exact claim_C8_theorem.2.2.2.2.2.2 "bogus_tag" (by decide) (by decide)
      (by decide) (by decide) (by decide)

/-!
## Claim C4: registry replacement and the close handler
-/

/-- C4: evaluation at the failing trace.  Sockets 0 and 1 connect; socket 0
authenticates as client `c`; socket 1 then authenticates as `c`, which
closes socket 0 with code 1000 and leaves exactly the record `(c, 1)`.
When socket 0's close event is subsequently processed, the close handler
removes the registry record keyed by socket 0's `clientId` field — which is
`c` — deleting socket 1's record: the registry has no record for `c`,
contradicting the claim that `(c, w2)` remains in every reachable state. -/
theorem claim_C4_theorem :
    getAssoc (addClient (newConnection (newConnection RegistryState.initial 0) 1)
        "c" 0).clients "c" = some 0
    ∧ getAssoc (addClient (addClient (newConnection (newConnection
        RegistryState.initial 0) 1) "c" 0) "c" 1).clients "c" = some 1
    ∧ (addClient (addClient (newConnection (newConnection
        RegistryState.initial 0) 1) "c" 0) "c" 1).closeCalls = [(0, 1000)]
    ∧ getAssoc (closeEvent (addClient (addClient (newConnection (newConnection
        RegistryState.initial 0) 1) "c" 0) "c" 1) 0).clients "c" = none := by
  refine ⟨rfl, rfl, rfl, rfl⟩

/-!
## Claim C5: no-available-worker replies
-/

/-- C5 counterexample: with an empty cache and no available client,
`GET /v1/models` is served with `res.json(...)` at the default status 200,
not the claimed 503. -/
theorem claim_C5_counterexample :
    ¬ claimC5ModelsPred ModelsState.initial 5 "r" := by
  intro h
  simp [claimC5ModelsPred, ModelsState.initial, listModels, noClientsBody] at h

/-- C5 (amended): with no available client and no fresh cache,
`GET /v1/models` replies status 200 with
`{object:"list",data:[],message:"No LM Studio clients connected"}` (a fresh
cache takes precedence and is served instead); POST chat/completions (spec-
modelled controller), completions, and embeddings reply 503 with message
`No available LM Studio clients`; and `findAvailableClient` returns `none`
exactly when no registered transport is both OPEN and authenticated. -/
theorem claim_C5_theorem (st : ModelsState) (now : Nat) (rid : String)
    (reg : RegistryState) :
    (st.cache = none →
      listModels st now none rid = (st, ModelsOut.served ⟨200, noClientsBody⟩))
    ∧ (∀ payload, st.cache = some payload → st.cacheExpiry ≤ now →
        listModels st now none rid = (st, ModelsOut.served ⟨200, noClientsBody⟩))
    ∧ completionHandlerStart none rid =
        HandlerStart.errorReply ⟨503, errorBody 503 "No available LM Studio clients"⟩
    ∧ completionStreamHandlerStart none rid =
        HandlerStart.errorReply ⟨503, errorBody 503 "No available LM Studio clients"⟩
    ∧ embeddingsHandlerStart none rid =
        HandlerStart.errorReply ⟨503, errorBody 503 "No available LM Studio clients"⟩
    ∧ chatCompletionHandlerStart none rid =
        HandlerStart.errorReply ⟨503, errorBody 503 "No available LM Studio clients"⟩
    ∧ (findAvailableClient reg = none ↔
        ∀ e ∈ reg.clients, ¬(sockIsOpen reg e.2 = true ∧ sockIsAuth reg e.2 = true)) := by
  refine ⟨?_, ?_, rfl, rfl, rfl, rfl, ?_⟩
  · intro hc
    simp [listModels, hc]
  · intro payload hc hle
    simp [listModels, hc, Nat.not_lt.mpr hle]
  · simp only [findAvailableClient]
    constructor
    · intro h e he hc
      have hf : List.find? (fun e => sockIsOpen reg e.2 && sockIsAuth reg e.2)
          reg.clients = none := by
        cases hfind : List.find? (fun e => sockIsOpen reg e.2 && sockIsAuth reg e.2)
            reg.clients with
        | none => rfl
        | some x =>
          rw [hfind] at h
          exact Option.noConfusion h
      have hnp := List.find?_eq_none.mp hf e he
      exact hnp (by simp [hc.1, hc.2])
    · intro h
      have hf : List.find? (fun e => sockIsOpen reg e.2 && sockIsAuth reg e.2)
          reg.clients = none := by
        refine List.find?_eq_none.mpr ?_
        intro e he hc
        simp only [Bool.and_eq_true] at hc
        exact h e he ⟨hc.1, hc.2⟩
      simp [hf]

/-- C5 witness: concrete instantiation of the amended theorem. -/
theorem claim_C5_theorem_witness :
    listModels ModelsState.initial 5 none "r" =
      (ModelsState.initial, ModelsOut.served ⟨200, noClientsBody⟩)
    ∧ (findAvailableClient RegistryState.initial = none ↔
        ∀ e ∈ RegistryState.initial.clients,
          ¬(sockIsOpen RegistryState.initial e.2 = true
            ∧ sockIsAuth RegistryState.initial e.2 = true)) :=
  ⟨(claim_C5_theorem ModelsState.initial 5 "r" RegistryState.initial).1 rfl,
   (claim_C5_theorem ModelsState.initial 5 "r" RegistryState.initial).2.2.2.2.2.2⟩

/-!
## Claim C2: cancellation propagation
-/

/-- C2: evaluation at the failing input.  The Edge side behaves as claimed:
on client disconnect the pending entry is removed and one
`cancel_request{requestId}` frame is sent.  The Worker side does not: its
dispatch chain has no branch for `cancel_request`, so receiving the frame
leaves the worker state unchanged — the upstream call is not aborted, the
stream stays registered, and a subsequent upstream chunk still emits a
`stream_chunk` frame carrying the cancelled requestId. -/
theorem claim_C2_theorem :
    compStep (registerStream CompTable.empty "r") (CompEvent.clientClosed "r")
      = (CompTable.empty, [CompOut.wsCancel "r"])
    ∧ workerDispatch "cancel_request" = WorkerAction.ignored
    ∧ workerStep ⟨["r"], []⟩ (WorkerEvent.incoming "cancel_request" "r")
      = ⟨["r"], []⟩
    ∧ (workerRun ⟨["r"], []⟩
        [WorkerEvent.incoming "cancel_request" "r",
         WorkerEvent.upstreamData "r" "x"]).sent
      = [WorkerFrame.streamChunk "r" "x"] := by
  refine ⟨rfl, rfl, rfl, rfl⟩

/-!
## Claim C7: registered deadlines and timeout behavior
-/

/-- C7 counterexample: the streaming timeout does not produce a 504
`Request timeout` response — the SSE headers are already sent; the timeout
callback writes `data: [ERROR] Request timeout` and ends the stream. -/
theorem claim_C7_counterexample : ¬ claimC7StreamTimeout "r" := by
  intro h
  simp only [claimC7StreamTimeout] at h
  exact absurd h (by decide)

/-- C7 (amended): deadlines are 10 s for models, 60 s for unary completions
and (spec-modelled) chat, 30 s for embeddings, and 300 s for streaming
completion requests.  At the deadline the entry is removed; a unary client
receives a 504 rejection with message `Request timeout`, while a streaming
client receives the SSE event `data: [ERROR] Request timeout` followed by
stream close (no 504 status). -/
theorem claim_C7_theorem (client : Nat) (rid : String) (st : CompTable)
    (mst : ModelsState) (d dm : Nat) :
    completionHandlerStart (some client) rid =
      HandlerStart.dispatched rid 60000 EntryKind.unary
    ∧ completionStreamHandlerStart (some client) rid =
      HandlerStart.dispatched rid 300000 EntryKind.stream
    ∧ embeddingsHandlerStart (some client) rid =
      HandlerStart.dispatched rid 30000 EntryKind.unary
    ∧ chatCompletionHandlerStart (some client) rid =
      HandlerStart.dispatched rid 60000 EntryKind.unary
    ∧ (∀ now, mst.cache = none →
        listModels mst now (some client) rid =
          ({ mst with pending := setAssoc mst.pending rid 10000 },
           ModelsOut.sentFrame rid))
    ∧ (getAssoc st.table rid = some ⟨EntryKind.unary, d⟩ →
        compStep st (CompEvent.timerFire rid) =
          (⟨delAssoc st.table rid⟩, [CompOut.rejectOut rid 504 "Request timeout"]))
    ∧ (getAssoc mst.pending rid = some dm →
        modelsTimerFire mst rid =
          ({ mst with pending := delAssoc mst.pending rid },
           [MOut.rejected rid 504 "Request timeout"]))
    ∧ (getAssoc st.table rid = some ⟨EntryKind.stream, d⟩ →
        compStep st (CompEvent.timerFire rid) =
          (⟨delAssoc st.table rid⟩,
           [CompOut.sseWrite rid "data: [ERROR] Request timeout\n\n",
            CompOut.sseEnd rid])) := by
  refine ⟨rfl, rfl, rfl, rfl, ?_, ?_, ?_, ?_⟩
  · intro now hc
    simp [listModels, hc, MODELS_TIMEOUT_MS]
  · intro h
    simp [compStep, h]
  · intro h
    simp [modelsTimerFire, h]
  · intro h
    simp [compStep, h]

/-- C7 witness: concrete unary and streaming deadline firings. -/
theorem claim_C7_theorem_witness :
    compStep (registerUnary CompTable.empty "r") (CompEvent.timerFire "r")
      = (CompTable.empty, [CompOut.rejectOut "r" 504 "Request timeout"])
    ∧ compStep (registerStream CompTable.empty "q") (CompEvent.timerFire "q")
      = (CompTable.empty, [CompOut.sseWrite "q" "data: [ERROR] Request timeout\n\n",
          CompOut.sseEnd "q"]) := by
  constructor
  · have h := (claim_C7_theorem 0 "r" (registerUnary CompTable.empty "r")
      ModelsState.initial 60000 0).2.2.2.2.2.1 rfl
    simpa [registerUnary, CompTable.empty, setAssoc, delAssoc] using h
  · have h := (claim_C7_theorem 0 "q" (registerStream CompTable.empty "q")
      ModelsState.initial 300000 0).2.2.2.2.2.2.2 rfl
    simpa [registerStream, CompTable.empty, setAssoc, delAssoc] using h

/-!
## Claim C10: models cache effects
-/

/-- C10: the cache payload and expiry are unchanged when the no-client
default body is served, when the request is dispatched to a client, on an
error response, and on the timeout; they are written exactly by a
successful `models_response` for a pending request; and with an empty
cache and an available client, a models request emits a fresh
`models_request` frame. -/
theorem claim_C10_theorem (st : ModelsState) (now reqNow : Nat) (rid : String)
    (data : Json) (msg : String) (dm : Nat) :
    ((listModels st now none rid).1.cache = st.cache
      ∧ (listModels st now none rid).1.cacheExpiry = st.cacheExpiry)
    ∧ (∀ w : Nat, (listModels st now (some w) rid).1.cache = st.cache
      ∧ (listModels st now (some w) rid).1.cacheExpiry = st.cacheExpiry)
    ∧ ((modelsResponse st rid data (some msg) reqNow).1.cache = st.cache
      ∧ (modelsResponse st rid data (some msg) reqNow).1.cacheExpiry = st.cacheExpiry)
    ∧ ((modelsTimerFire st rid).1.cache = st.cache
      ∧ (modelsTimerFire st rid).1.cacheExpiry = st.cacheExpiry)
    ∧ (getAssoc st.pending rid = some dm →
        modelsResponse st rid data none reqNow =
          ({ st with pending := delAssoc st.pending rid,
                     cache := some data,
                     cacheExpiry := reqNow + 60000 },
           [MOut.resolved rid ⟨200, data⟩]))
    ∧ (st.cache = none →
        (listModels st now (some 0) rid).2 = ModelsOut.sentFrame rid) := by
  refine ⟨?_, ?_, ?_, ?_, ?_, ?_⟩
  · cases hc : st.cache with
    | none => simp [listModels, hc]
    | some payload =>
      by_cases hn : st.cacheExpiry > now
      · simp [listModels, hc, hn]
      · simp [listModels, hc, hn]
  · intro w
    cases hc : st.cache with
    | none => simp [listModels, hc]
    | some payload =>
      by_cases hn : st.cacheExpiry > now
      · simp [listModels, hc, hn]
      · simp [listModels, hc, hn]
  · cases hp : getAssoc st.pending rid with
    | none => simp [modelsResponse, hp]
    | some e => simp [modelsResponse, hp]
  · cases hp : getAssoc st.pending rid with
    | none => simp [modelsTimerFire, hp]
    | some e => simp [modelsTimerFire, hp]
  · intro h
    simp [modelsResponse, h, CACHE_TTL_MS]
  · intro hc
    simp [listModels, hc]

/-- C10 witness: concrete instantiation. -/
theorem claim_C10_theorem_witness :
    modelsResponse ⟨none, 0, [("r", 10000)]⟩ "r" (Json.arr []) none 7 =
      (⟨some (Json.arr []), 60007, []⟩, [MOut.resolved "r" ⟨200, Json.arr []⟩])
    ∧ (listModels ⟨none, 0, []⟩ 7 (some 0) "r").2 = ModelsOut.sentFrame "r" := by
  constructor
  · have h := (claim_C10_theorem ⟨none, 0, [("r", 10000)]⟩ 7 7 "r"
      (Json.arr []) "m" 10000).2.2.2.2.1 rfl
    simpa [delAssoc] using h
  · exact (claim_C10_theorem ⟨none, 0, []⟩ 7 7 "r" (Json.arr []) "m" 10000).2.2.2.2.2 rfl

/-!
## Claim C1: SSE stream bridging
-/

/-- C1 counterexample: worker frames `stream_chunk{data:"A"}` then
`stream_end` on a fresh streaming entry.  The code writes
`data: "A"` (the JSON.stringify of the data, quotes included) rather than
the data verbatim, and the `stream_end` frame produces no `[DONE]` event at
all: `processCompletionResponse` ignores the `streamEnd` field and trips a
`TypeError` on the streaming entry (`request.resolve` is undefined). -/
theorem claim_C1_counterexample :
    ¬ claimC1Pred "r" [CompEvent.chunkMsg "r" (Json.str "A"), CompEvent.endMsg "r"] := by
  intro h
  obtain ⟨h1, h2⟩ := h
  exact absurd h1 (by decide)

/-- C1 (amended): for a pending streaming entry, each `stream_chunk{data}`
causes exactly one SSE event `data: <JSON.stringify(data)>` in receipt
order; `data: [DONE]` plus `res.end()` happen exactly when a chunk whose
`data` has a truthy `choices[0].finish_reason` arrives (and then the entry
is removed); a `stream_end` frame for a pending streaming entry writes
nothing — it raises a `TypeError` and leaves the entry pending. -/
theorem claim_C1_theorem (rid : String) (st : CompTable) :
    (∀ (d : Json) (ms : Nat),
      getAssoc st.table rid = some ⟨EntryKind.stream, ms⟩ →
      finishReasonCheck d = some false →
      compStep st (CompEvent.chunkMsg rid d) =
        (st, [CompOut.sseWrite rid ("data: " ++ jsonStringify d ++ "\n\n")]))
    ∧ (∀ (d : Json) (ms : Nat),
      getAssoc st.table rid = some ⟨EntryKind.stream, ms⟩ →
      finishReasonCheck d = some true →
      compStep st (CompEvent.chunkMsg rid d) =
        (⟨delAssoc st.table rid⟩,
         [CompOut.sseWrite rid ("data: " ++ jsonStringify d ++ "\n\n"),
          CompOut.sseWrite rid "data: [DONE]\n\n", CompOut.sseEnd rid]))
    ∧ (∀ ms : Nat,
      getAssoc st.table rid = some ⟨EntryKind.stream, ms⟩ →
      compStep st (CompEvent.endMsg rid) = (st, [CompOut.jsError rid]))
    ∧ (∀ (ds : List Json) (ms : Nat),
      (∀ d ∈ ds, finishReasonCheck d = some false) →
      getAssoc st.table rid = some ⟨EntryKind.stream, ms⟩ →
      compRun st (ds.map (CompEvent.chunkMsg rid)) =
        (st, ds.map (fun d =>
          CompOut.sseWrite rid ("data: " ++ jsonStringify d ++ "\n\n")))) := by
  have hchunk : ∀ (d : Json) (ms : Nat),
      getAssoc st.table rid = some ⟨EntryKind.stream, ms⟩ →
      finishReasonCheck d = some false →
      compStep st (CompEvent.chunkMsg rid d) =
        (st, [CompOut.sseWrite rid ("data: " ++ jsonStringify d ++ "\n\n")]) := by
    intro d ms h hfc
    simp [compStep, procCompletionResponse, handleStreamRun, h, hfc]
  refine ⟨hchunk, ?_, ?_, ?_⟩
  · intro d ms h hfc
    simp [compStep, procCompletionResponse, handleStreamRun, h, hfc]
  · intro ms h
    simp [compStep, procCompletionResponse, h]
  · intro ds
    induction ds with
    | nil => intro ms _ _; simp [compRun]
    | cons d rest ih =>
      intro ms hall h
      have hd := hchunk d ms h (hall d (List.mem_cons_self d rest))
      have hr := ih ms (fun x hx => hall x (List.mem_cons_of_mem d hx)) h
      simp only [List.map_cons, compRun, hd, hr]
      simp

/-- C1 witness: a fresh streaming entry receiving a string chunk `A`. -/
theorem claim_C1_theorem_witness :
    compStep (registerStream CompTable.empty "r")
        (CompEvent.chunkMsg "r" (Json.str "A")) =
      (registerStream CompTable.empty "r",
       [CompOut.sseWrite "r" "data: \"A\"\n\n"]) := by
  have h0 := claim_C1_theorem "r" (registerStream CompTable.empty "r")
  have h := h0.1 (Json.str "A") STREAM_TIMEOUT_MS rfl (by decide)
  simpa using h

/-!
## Claim C6: at most one terminal outcome per pending entry
-/

theorem presenceNat_le_one (st : CompTable) (r : String) :
    presenceNat st r ≤ 1 := by
  unfold presenceNat
  split <;> omega

theorem step_del_term (st : CompTable) (r0 r : String) (e : Entry)
    (hu : UniqKeys st.table) (h : getAssoc st.table r0 = some e) :
    (if r0 = r then 1 else 0) + presenceNat ⟨delAssoc st.table r0⟩ r
      ≤ presenceNat st r := by
  by_cases hr : r = r0
  · subst hr
    simp [presenceNat, getAssoc_delAssoc_self st.table r hu, h]
  · have hne : r0 ≠ r := fun hh => hr hh.symm
    simp only [if_neg hne, Nat.zero_add, presenceNat,
      getAssoc_delAssoc_ne st.table r0 r hr]
    exact Nat.le_refl _

theorem terminalCount_single_rejectOut (r0 r : String) (s : Nat) (m : String) :
    terminalCount r [CompOut.rejectOut r0 s m] = if r0 = r then 1 else 0 := by
  simp only [terminalCount, List.filter]
  split <;> rename_i hsp <;> simp_all

theorem terminalCount_single_resolveOut (r0 r : String) (d : Option Json) :
    terminalCount r [CompOut.resolveOut r0 d] = if r0 = r then 1 else 0 := by
  simp only [terminalCount, List.filter]
  split <;> rename_i hsp <;> simp_all

theorem terminalCount_single_sseEnd (r0 r : String) :
    terminalCount r [CompOut.sseEnd r0] = if r0 = r then 1 else 0 := by
  simp only [terminalCount, List.filter]
  split <;> rename_i hsp <;> simp_all

theorem terminalCount_cons_write (r r0 t : String) (rest : List CompOut) :
    terminalCount r (CompOut.sseWrite r0 t :: rest) = terminalCount r rest := by
  simp [terminalCount, List.filter]

theorem step_del_noterm (st : CompTable) (r0 r : String)
    (hu : UniqKeys st.table) :
    presenceNat ⟨delAssoc st.table r0⟩ r ≤ presenceNat st r := by
  by_cases hr : r = r0
  · subst hr
    simp [presenceNat, getAssoc_delAssoc_self st.table r hu]
  · simp only [presenceNat, getAssoc_delAssoc_ne st.table r0 r hr]
    exact Nat.le_refl _

theorem proc_le (st : CompTable) (r0 : String) (data : Option Json)
    (error : Option String) (stream : Bool) (hu : UniqKeys st.table)
    (r : String) :
    terminalCount r (procCompletionResponse st r0 data error stream).2
      + presenceNat (procCompletionResponse st r0 data error stream).1 r
      ≤ presenceNat st r := by
  cases h : getAssoc st.table r0 with
  | none => simp [procCompletionResponse, h, terminalCount]
  | some e =>
    rcases e with ⟨kind, ms⟩
    cases error with
    | some msg =>
      cases stream with
      | true =>
        cases kind with
        | stream =>
          have hsr : handleStreamRun r0 (some (Json.obj [("error", Json.str msg)]))
              = (some false,
                 [CompOut.sseWrite r0 ("data: "
                   ++ jsonStringify (Json.obj [("error", Json.str msg)])
                   ++ "\n\n")]) := by
            simp [handleStreamRun, finishReasonCheck, jsonGet]
          simp only [procCompletionResponse, h, hsr]
          simpa [terminalCount] using step_del_noterm st r0 r hu
        | unary =>
          simp [procCompletionResponse, h, terminalCount]
      | false =>
        cases kind with
        | unary =>
          simp only [procCompletionResponse, h]
          simpa [terminalCount_single_rejectOut] using
            step_del_term st r0 r ⟨EntryKind.unary, ms⟩ hu h
        | stream =>
          simp [procCompletionResponse, h, terminalCount]
    | none =>
      cases stream with
      | true =>
        cases kind with
        | stream =>
          cases data with
          | none =>
            simp [procCompletionResponse, h, handleStreamRun, terminalCount]
          | some d =>
            cases hfc : finishReasonCheck d with
            | none =>
              simp [procCompletionResponse, h, handleStreamRun, hfc, terminalCount]
            | some b =>
              cases b with
              | false =>
                simp [procCompletionResponse, h, handleStreamRun, hfc, terminalCount]
              | true =>
                simp only [procCompletionResponse, h, handleStreamRun, hfc,
                  if_true]
                rw [terminalCount_cons_write, terminalCount_cons_write,
                  terminalCount_single_sseEnd]
                exact step_del_term st r0 r ⟨EntryKind.stream, ms⟩ hu h
        | unary =>
          simp [procCompletionResponse, h, terminalCount]
      | false =>
        cases kind with
        | unary =>
          simp only [procCompletionResponse, h]
          simpa [terminalCount_single_resolveOut] using
            step_del_term st r0 r ⟨EntryKind.unary, ms⟩ hu h
        | stream =>
          simp [procCompletionResponse, h, terminalCount]

theorem compStep_le (st : CompTable) (ev : CompEvent) (r : String)
    (hu : UniqKeys st.table) :
    terminalCount r (compStep st ev).2 + presenceNat (compStep st ev).1 r
      ≤ presenceNat st r := by
  cases ev with
  | responseMsg r0 data error stream => exact proc_le st r0 data error stream hu r
  | chunkMsg r0 d =>
    cases hp : (getAssoc st.table r0).isSome with
    | true =>
      simpa only [compStep, hp, if_true] using proc_le st r0 (some d) none true hu r
    | false =>
      simp [compStep, hp, terminalCount]
  | endMsg r0 =>
    cases hp : (getAssoc st.table r0).isSome with
    | true =>
      simpa only [compStep, hp, if_true] using proc_le st r0 none none false hu r
    | false =>
      simp [compStep, hp, terminalCount]
  | timerFire r0 =>
    cases h : getAssoc st.table r0 with
    | none => simp [compStep, h, terminalCount]
    | some e =>
      rcases e with ⟨kind, ms⟩
      cases kind with
      | unary =>
        simp only [compStep, h]
        simpa [terminalCount_single_rejectOut] using
          step_del_term st r0 r ⟨EntryKind.unary, ms⟩ hu h
      | stream =>
        simp only [compStep, h]
        rw [terminalCount_cons_write, terminalCount_single_sseEnd]
        exact step_del_term st r0 r ⟨EntryKind.stream, ms⟩ hu h
  | clientClosed r0 =>
    cases h : getAssoc st.table r0 with
    | none => simp [compStep, h, terminalCount]
    | some e =>
      simp only [compStep, h]
      simpa [terminalCount] using step_del_noterm st r0 r hu

theorem compStep_table_shape (st : CompTable) (ev : CompEvent) :
    (compStep st ev).1.table = st.table
    ∨ ∃ k, (compStep st ev).1.table = delAssoc st.table k := by
  cases ev <;> (unfold compStep procCompletionResponse; repeat' split) <;>
    first
      | exact Or.inl rfl
      | exact Or.inr ⟨_, rfl⟩

theorem compStep_uniq (st : CompTable) (ev : CompEvent)
    (hu : UniqKeys st.table) : UniqKeys (compStep st ev).1.table := by
  rcases compStep_table_shape st ev with hsh | ⟨k, hsh⟩
  · rw [hsh]; exact hu
  · rw [hsh]; exact uniqKeys_delAssoc st.table k hu

theorem terminalCount_append (r : String) (a b : List CompOut) :
    terminalCount r (a ++ b) = terminalCount r a + terminalCount r b := by
  simp [terminalCount, List.filter_append]

theorem compRun_le (st : CompTable) (evs : List CompEvent) (r : String)
    (hu : UniqKeys st.table) :
    terminalCount r (compRun st evs).2 + presenceNat (compRun st evs).1 r
      ≤ presenceNat st r := by
  induction evs generalizing st with
  | nil => simp [compRun, terminalCount]
  | cons ev rest ih =>
    have h1 := compStep_le st ev r hu
    have h2 := ih (compStep st ev).1 (compStep_uniq st ev hu)
    simp only [compRun]
    have hs : compStep st ev = ((compStep st ev).1, (compStep st ev).2) := rfl
    rw [hs]
    simp only [terminalCount_append]
    omega

/-- C6: over any trace of response / chunk / stream-end / timeout /
disconnect events, at most one terminal outcome (resolve, reject, or
stream finish) is delivered per pending entry: the delivered terminals
plus the entry's remaining presence never exceed its initial presence, so
once a terminal is delivered the entry is gone; and any response, chunk,
or stream-end operation for an absent requestId is a no-op that only logs
a warning. -/
theorem claim_C6_theorem (st : CompTable) (evs : List CompEvent) (r : String)
    (hu : UniqKeys st.table) :
    (terminalCount r (compRun st evs).2 + presenceNat (compRun st evs).1 r
      ≤ presenceNat st r)
    ∧ (terminalCount r (compRun st evs).2 ≥ 1 →
        getAssoc (compRun st evs).1.table r = none)
    ∧ (getAssoc st.table r = none →
        (∀ data error stream,
          compStep st (CompEvent.responseMsg r data error stream)
            = (st, [CompOut.warnLog r]))
        ∧ (∀ d, compStep st (CompEvent.chunkMsg r d) = (st, [CompOut.warnLog r]))
        ∧ compStep st (CompEvent.endMsg r) = (st, [CompOut.warnLog r])) := by
  refine ⟨compRun_le st evs r hu, ?_, ?_⟩
  · intro hterm
    have hle := compRun_le st evs r hu
    have hp1 := presenceNat_le_one st r
    have hzero : presenceNat (compRun st evs).1 r = 0 := by omega
    cases hgn : getAssoc (compRun st evs).1.table r with
    | none => rfl
    | some x =>
      unfold presenceNat at hzero
      rw [hgn] at hzero
      simp at hzero
  · intro habs
    refine ⟨?_, ?_, ?_⟩
    · intro data error stream
      simp [compStep, procCompletionResponse, habs]
    · intro d
      simp [compStep, habs]
    · simp [compStep, habs]

/-- C6 witness: a resolved unary entry is removed and a late duplicate
response is a warn-logged no-op. -/
theorem claim_C6_theorem_witness :
    (terminalCount "r" (compRun (registerUnary CompTable.empty "r")
        [CompEvent.responseMsg "r" (some Json.null) none false,
         CompEvent.responseMsg "r" (some Json.null) none false]).2
      + presenceNat (compRun (registerUnary CompTable.empty "r")
        [CompEvent.responseMsg "r" (some Json.null) none false,
         CompEvent.responseMsg "r" (some Json.null) none false]).1 "r"
      ≤ presenceNat (registerUnary CompTable.empty "r") "r")
    ∧ (∀ d, compStep CompTable.empty (CompEvent.chunkMsg "r" d)
        = (CompTable.empty, [CompOut.warnLog "r"])) :=
  ⟨(claim_C6_theorem (registerUnary CompTable.empty "r")
      [CompEvent.responseMsg "r" (some Json.null) none false,
       CompEvent.responseMsg "r" (some Json.null) none false] "r"
      (by simp [UniqKeys, registerUnary, CompTable.empty, setAssoc])).1,
   (claim_C6_theorem CompTable.empty [] "r"
      (by simp [UniqKeys, CompTable.empty])).2.2 rfl |>.2.1⟩
